import Mathlib

/-!
Shallow embedding of `check.py`, the SemiCOL submission-structure checker.

The program is a linear command-line validator: for each archive path it
extracts a ZIP, validates `classification.json` (fixed set of 40 keys,
numeric values in [0, 1], a ROC-AUC sanity computation) and validates the
six segmentation case folders `wns_case_01 .. wns_case_06` against an
external manifest `expected_patches.json` (patch presence, PNG decode,
dtype uint8, shape (3000, 3000), pixel labels in 1..10), printing
ERROR / WARNING / SUCCESS diagnostic lines.

The embedding models the diagnostic stream as a `List Finding` together
with the per-category boolean error flags, mirroring the control flow of
the source line by line.  The iteration order of Python over a `set` of
strings depends on per-process hash randomization; it is modelled by an
explicit enumeration parameter `σ : SetOrd` applied exactly where the
source converts a set to a list or iterates over it.
-/

set_option maxHeartbeats 1000000

/-- Severity of a printed diagnostic line (`ERROR` / `WARNING` /
`SUCCESS`); the per-archive banner `Checking archive: ...` is `info`. -/
inductive Severity where
  | error
  | warning
  | success
  | info
  deriving DecidableEq, Repr

/-- Python JSON values as produced by `json.load`, restricted to what
`check.py` inspects: numbers (int or float, kept as exact rationals —
the checker compares them only with 0 and 1), booleans, and the
non-numeric shapes (string, null, array, object) whose contents the
checker never reads, so their payloads are omitted. -/
inductive JValue where
  | jfloat (q : Rat)
  | jint (n : Int)
  | jbool (b : Bool)
  | jstr
  | jnull
  | jarr
  | jobj
  deriving DecidableEq, Repr

/-- Python type name of a JSON value, as used in the type-error message
(the source prints `type(v)`, which renders as `<class ...>`; we keep the
bare name, no claim inspects this text). -/
def pyTypeName : JValue → String
  | JValue.jfloat _ => "float"
  | JValue.jint _ => "int"
  | JValue.jbool _ => "bool"
  | JValue.jstr => "str"
  | JValue.jnull => "NoneType"
  | JValue.jarr => "list"
  | JValue.jobj => "dict"

/-- `isinstance(value, float) or isinstance(value, int)` from line 82 of
`check.py`.  In Python, `bool` is a subclass of `int`, so `isinstance(True,
int)` is `True`: booleans pass the numeric type check. -/
def pyIsNumeric : JValue → Bool
  | JValue.jfloat _ => true
  | JValue.jint _ => true
  | JValue.jbool _ => true
  | _ => false

/-- Numeric value of a JSON value under Python comparison semantics:
`True == 1` and `False == 0`.  Only applied to values for which
`pyIsNumeric` holds; the default 0 for other shapes is never reached by
the checker. -/
def jNum : JValue → Rat
  | JValue.jfloat q => q
  | JValue.jint n => (n : Rat)
  | JValue.jbool b => if b then 1 else 0
  | _ => 0

/-- One diagnostic line of the checker, in structured form; `render`
recovers the printed text. -/
inductive Finding where
  | header (path : String)
  | archiveNotFound
  | zipCorrupted
  | clsMissing
  | clsIsDir
  | clsBadUnicode
  | clsBadJson
  | clsMissingKeys (ks : List String)
  | clsUnexpectedKeys (ks : List String)
  | clsBadType (k : String) (t : String)
  | clsOutOfRange (k : String) (v : Rat)
  | clsAucError (msg : String)
  | clsSuccess
  | segCaseMissing (c : Nat)
  | segCaseIsFile (c : Nat)
  | segMissingPatches (c : Nat) (ps : List String)
  | segUnexpectedPatches (c : Nat) (ps : List String)
  | patchBadDtype (name : String) (dt : String)
  | patchBadShape (name : String) (shape : List Nat)
  | patchBadClasses (name : String) (cs : List Nat)
  | patchInvalid (name : String)
  | segSuccess
  | allSuccess
  deriving DecidableEq, Repr

/-- Severity of each diagnostic, read off the `print` statements of
`check.py` (the unreachable branches `clsIsDir` and `segCaseIsFile` keep
the severity their `print` would have had). -/
def sev : Finding → Severity
  | Finding.header _ => Severity.info
  | Finding.archiveNotFound => Severity.error
  | Finding.zipCorrupted => Severity.error
  | Finding.clsMissing => Severity.error
  | Finding.clsIsDir => Severity.error
  | Finding.clsBadUnicode => Severity.error
  | Finding.clsBadJson => Severity.error
  | Finding.clsMissingKeys _ => Severity.error
  | Finding.clsUnexpectedKeys _ => Severity.warning
  | Finding.clsBadType _ _ => Severity.error
  | Finding.clsOutOfRange _ _ => Severity.warning
  | Finding.clsAucError _ => Severity.error
  | Finding.clsSuccess => Severity.success
  | Finding.segCaseMissing _ => Severity.warning
  | Finding.segCaseIsFile _ => Severity.error
  | Finding.segMissingPatches _ _ => Severity.error
  | Finding.segUnexpectedPatches _ _ => Severity.warning
  | Finding.patchBadDtype _ _ => Severity.error
  | Finding.patchBadShape _ _ => Severity.error
  | Finding.patchBadClasses _ _ => Severity.warning
  | Finding.patchInvalid _ => Severity.error
  | Finding.segSuccess => Severity.success
  | Finding.allSuccess => Severity.success

/-- Bracketed listing of names, standing for the Python `list` repr in the
diagnostic messages (Python quotes each element; no claim inspects the
quoting). -/
def pyStrList (ks : List String) : String :=
  "[" ++ String.intercalate ", " ks ++ "]"

/-- Bracketed listing of naturals, for the unexpected-classes warning. -/
def pyNatList (cs : List Nat) : String :=
  "[" ++ String.intercalate ", " (cs.map toString) ++ "]"

/-- Tuple rendering of a numpy shape, like `(3000, 3000)`. -/
def pyNatTuple (s : List Nat) : String :=
  "(" ++ String.intercalate ", " (s.map toString) ++ ")"

/-- Case folder name `wns_case_XX` with the `02d` zero padding of the
source f-string. -/
def caseName (c : Nat) : String :=
  "wns_case_" ++ (if c < 10 then "0" else "") ++ toString c

/-- Printed text of a diagnostic, reproducing the f-strings of
`check.py`.  Deviations kept deliberately: the Python repr quoting of list
elements and of case names is dropped, rationals print as `Rat` instead
of float repr, and `type(v)` prints as the bare type name — no claim
depends on those fragments. -/
def render : Finding → String
  | Finding.header p => "\nChecking archive: " ++ p
  | Finding.archiveNotFound =>
      "\tERROR:  \tThe archive could not be found. Please check the path that you supplied."
  | Finding.zipCorrupted => "\tERROR:  \tThis ZIP file is corrupted and cannot be opened."
  | Finding.clsMissing => "\tERROR:  \tclassification.json is missing."
  | Finding.clsIsDir => "\tERROR:  \tclassification.json is a directory."
  | Finding.clsBadUnicode => "\tERROR:  \tclassification.json contains invalid unicode characters."
  | Finding.clsBadJson =>
      "\tERROR:  \tclassification.json is not a valid JSON file.http://json.parser.online.fr/ can tell you what the issue is..."
  | Finding.clsMissingKeys ks =>
      "\tERROR:  \tclassification.json is missing the following keys " ++ pyStrList ks
  | Finding.clsUnexpectedKeys ks =>
      "\tWARNING:\tclassification.json contains the following unexpected keys " ++ pyStrList ks
  | Finding.clsBadType k t =>
      "\tERROR:  \tIn classification.json, key " ++ k ++ " has a value of type " ++ t ++
        " (instead of float)."
  | Finding.clsOutOfRange k v =>
      "\tWARNING:\tIn classification.json, key " ++ k ++ " has a float value (" ++ toString v ++
        ") not in range [0, 1]."
  | Finding.clsAucError msg => "\tERROR:  \tUnexpected error when computing the AUC " ++ msg
  | Finding.clsSuccess => "\tSUCCESS:\tclassification.json is valid!"
  | Finding.segCaseMissing c => "\tWARNING:\tFolder for case " ++ caseName c ++ " is missing."
  | Finding.segCaseIsFile c => "\tERROR:  \tFolder for case " ++ caseName c ++ " is a file."
  | Finding.segMissingPatches c ps =>
      "\tERROR:  \t" ++ caseName c ++ " is missing the following patches [" ++ pyStrList ps ++ "]"
  | Finding.segUnexpectedPatches c ps =>
      "\tWARNING:\t" ++ caseName c ++ " contains the following unexpected patches " ++ pyStrList ps
  | Finding.patchBadDtype n d => "\tERROR:\t" ++ n ++ " has dtype " ++ d ++ " (instead of uint8)."
  | Finding.patchBadShape n s =>
      "\tERROR:  \t" ++ n ++ " has shape " ++ pyNatTuple s ++ " (instead of (3000, 3000))."
  | Finding.patchBadClasses n cs =>
      "\tWARNING:\t" ++ n ++ " contains unexpected classes " ++ pyNatList cs
  | Finding.patchInvalid n => "\tERROR:  \t" ++ n ++ " is not a valid PNG file."
  | Finding.segSuccess => "\tSUCCESS:\tNo errors in the segmentations files!"
  | Finding.allSuccess => "\tSUCCESS:\tThe submission is completely valid!"

/-- Enumeration order used when the source converts a Python `set` of
strings to a list (`list(s)`) or iterates over it (`for key in
keys_found`).  CPython enumerates string sets in an order determined by
per-process hash randomization, so the order is an external parameter of
a run. -/
abbrev SetOrd : Type := List String → List String

/-- A valid set-enumeration order returns the elements it is given, in
some order. -/
def PySetOrd (σ : SetOrd) : Prop :=
  ∀ l : List String, List.Perm (σ l) l

/-- The 40 expected keys of `classification.json`, in the order of the
set literal at lines 60-65 of `check.py`. -/
def expectedKeysList : List String :=
  ["FoSJZXMf", "QWbE525I", "rXnHCUvh", "QgiI3ZjZ", "mEbHuWpr", "QALoeYtI", "ekSUm2cR",
   "IWHbSh5u", "nDEUHXwj", "JMo8YkLs", "DsRY1rxV", "eRLJEqUc", "I5eHKnl9", "TE4z9RQi",
   "pijPwLr3", "JEKP6PPk", "VkwcFVCj", "gXwu1b4V", "OuM2aSiS", "2pT4GFzn", "9jNhMVzm",
   "Jf22jnO2", "DZVCFC0G", "yUTVZuRr", "XS7iESy5", "ABLVABMT", "usRRkq2C", "J9cGjQjN",
   "DokmCXM1", "tUw6bIr8", "VcspD4KF", "ft5ALWqc", "4Hjkjs0i", "9bwsptDH", "AlTjYbsA",
   "tJgvMquY", "x2cYOIty", "NUYZ3vYd", "F62qzus2", "BHTUesDo"]

/-- Dictionary access `predictions[key]`.  The list represents the dict
produced by `json.load` in insertion order, so its keys are distinct; the
default `jnull` for an absent key is never reached by the checker, which
only looks up keys taken from the dict itself. -/
def dictGet : List (String × JValue) → String → JValue
  | [], _ => JValue.jnull
  | (k, v) :: rest, key => if key = k then v else dictGet rest key

/-- Per-key value validation, lines 80-89 of `check.py`: a non-numeric
value is an ERROR naming key and type; a numeric value outside [0, 1] is
a WARNING naming key and value. -/
def clsKeyFindings (k : String) (v : JValue) : List Finding :=
  if pyIsNumeric v = false then [Finding.clsBadType k (pyTypeName v)]
  else if jNum v < 0 ∨ 1 < jNum v then [Finding.clsOutOfRange k (jNum v)]
  else []

/-- Synthetic ground truth `[1] + [0] * (len(predictions) - 1)` from
line 95 of `check.py`. -/
def dummyGt (n : Nat) : List Nat :=
  1 :: List.replicate (n - 1) 0

/-- Model of `sklearn.metrics.roc_auc_score` on a binary ground truth
(external library code, modelled from its documented contract): it
raises when the sample counts differ or when only one class is present
in `y_true`, and otherwise returns the Mann-Whitney AUC of the scores. -/
def rocAucScore (yTrue : List Nat) (yScore : List Rat) : Except String Rat :=
  if yTrue.length ≠ yScore.length then
    Except.error "Found input variables with inconsistent numbers of samples"
  else
    let pairs := yTrue.zip yScore
    let pos := (pairs.filter fun p => decide (p.1 = 1)).map Prod.snd
    let neg := (pairs.filter fun p => decide (p.1 ≠ 1)).map Prod.snd
    if pos.isEmpty || neg.isEmpty then
      Except.error "Only one class present in y_true. ROC AUC score is not defined in that case."
    else
      Except.ok
        (((pos.flatMap fun p =>
            neg.map fun q => if q < p then (1 : Rat) else if q = p then 1 / 2 else 0).sum) /
          ((pos.length : Rat) * (neg.length : Rat)))

/-- Whether an `Except` completed without raising. -/
def isOkE : Except String Rat → Bool
  | Except.ok _ => true
  | Except.error _ => false

/-- Result of reading `classification.json` where it is a regular file:
invalid unicode, invalid JSON, or a parsed JSON object (the dict, in
insertion order). -/
inductive ClsContent where
  | badUnicode
  | badJson
  | parsed (obj : List (String × JValue))
  deriving DecidableEq, Repr

/-- Filesystem state of the path `tempdir / "classification.json"`. -/
inductive ClsPath where
  | absent
  | dirEntry
  | fileEntry (content : ClsContent)
  deriving DecidableEq, Repr

/-- `path_classification.is_file()`. -/
def clsIsFile : ClsPath → Bool
  | ClsPath.fileEntry _ => true
  | _ => false

/-- `path_classification.is_dir()`. -/
def clsIsDir : ClsPath → Bool
  | ClsPath.dirEntry => true
  | _ => false

/-- Content of the classification path; only used in the branch where
`clsIsFile` already holds, so the default on the other shapes is never
reached. -/
def clsContent : ClsPath → ClsContent
  | ClsPath.fileEntry c => c
  | _ => ClsContent.badJson

/-- Schema, value and AUC checks over the parsed dict, lines 58-99 of
`check.py`: missing keys (ERROR), unexpected keys (WARNING, flag set),
per-key value checks iterated in set order, then the AUC sanity
computation when more than 2 entries exist and no finding was recorded.
Returns the findings together with `any_classification_error`. -/
def clsParsed (σ : SetOrd) (obj : List (String × JValue)) : List Finding × Bool :=
  let keysFound := (obj.map Prod.fst).dedup
  let missing := expectedKeysList.filter fun k => decide (k ∉ keysFound)
  let unexpected := keysFound.filter fun k => decide (k ∉ expectedKeysList)
  let s1 : List Finding × Bool :=
    if missing.isEmpty then ([], false) else ([Finding.clsMissingKeys (σ missing)], true)
  let s2 : List Finding × Bool :=
    if unexpected.isEmpty then s1
    else (s1.1 ++ [Finding.clsUnexpectedKeys (σ unexpected)], true)
  let s3 := (σ keysFound).foldl
    (fun acc k =>
      (acc.1 ++ clsKeyFindings k (dictGet obj k),
        acc.2 || !(clsKeyFindings k (dictGet obj k)).isEmpty)) s2
  if 2 < obj.length ∧ s3.2 = false then
    match rocAucScore (dummyGt obj.length) (obj.map fun kv => jNum kv.2) with
    | Except.ok _ => s3
    | Except.error e => (s3.1 ++ [Finding.clsAucError e], true)
  else s3

/-- Whole classification check, lines 32-102 of `check.py`, including
the final SUCCESS line printed when `any_classification_error` stayed
false.  The branch order of the source is kept: a directory fails
`is_file()` first, so the `is_dir()` ERROR branch is unreachable. -/
def clsCheck (σ : SetOrd) (c : ClsPath) : List Finding × Bool :=
  let r : List Finding × Bool :=
    if clsIsFile c = false then ([Finding.clsMissing], true)
    else if clsIsDir c = true then ([Finding.clsIsDir], true)
    else
      match clsContent c with
      | ClsContent.badUnicode => ([Finding.clsBadUnicode], true)
      | ClsContent.badJson => ([Finding.clsBadJson], true)
      | ClsContent.parsed obj => clsParsed σ obj
  (r.1 ++ (if r.2 then [] else [Finding.clsSuccess]), r.2)

/-- Decoded state of one patch file, as seen through
`np.asarray(PIL.Image.open(patch))`: either the open raises
(`PermissionError` / `UnidentifiedImageError`), or it yields an array
with a dtype, a shape and pixel values. -/
inductive PatchImage where
  | invalid
  | image (dtype : String) (shape : List Nat) (pixels : List Nat)
  deriving DecidableEq, Repr

/-- One regular file inside a case directory. -/
structure PatchFile where
  name : String
  img : PatchImage
  deriving DecidableEq, Repr

/-- Filesystem state of the path `tempdir / wns_case_XX`: absent, a
regular file, or a directory with its regular files. -/
inductive CaseEntry where
  | missing
  | file
  | dir (files : List PatchFile)
  deriving DecidableEq, Repr

/-- `case_path.is_dir()`. -/
def isDirE : CaseEntry → Bool
  | CaseEntry.dir _ => true
  | _ => false

/-- `case_path.is_file()`. -/
def isFileE : CaseEntry → Bool
  | CaseEntry.file => true
  | _ => false

/-- Files of a case directory; only used in the branch where `isDirE`
already holds. -/
def dirFiles : CaseEntry → List PatchFile
  | CaseEntry.dir fs => fs
  | _ => []

/-- The external manifest `expected_patches.json`: expected patch file
names per case number (the source indexes it by the decimal string of
the case number). -/
abbrev Manifest : Type := Nat → List String

/-- `list(range(1, 11))`, the allowed pixel classes. -/
def expectedClasses : List Nat :=
  [1, 2, 3, 4, 5, 6, 7, 8, 9, 10]

/-- The expected numpy shape `(3000, 3000)`. -/
def expectedShape : List Nat :=
  [3000, 3000]

/-- `np.unique`: the sorted distinct pixel values of the array. -/
def npUnique (px : List Nat) : List Nat :=
  List.insertionSort (fun a b => a ≤ b) px.dedup

/-- Bytewise suffix test used to model both `str.endswith` and the
`glob("*.png")` name filter.  (Defined over the character lists so that
concrete instances evaluate; `String.endsWith` is implemented by
well-founded recursion and does not reduce.) -/
def strEndsWith (s suf : String) : Bool :=
  suf.data.isSuffixOf s.data

/-- Per-patch validation, lines 142-159 of `check.py`: undecodable file
is an ERROR; otherwise dtype != uint8 is an ERROR, shape != (3000, 3000)
is an ERROR, and pixel values outside 1..10 are a WARNING listing the
offending values (sets of small ints enumerate deterministically in
CPython, modelled by the sorted order of `np.unique`). -/
def patchCheck (name : String) : PatchImage → List Finding
  | PatchImage.invalid => [Finding.patchInvalid name]
  | PatchImage.image dt shape px =>
      (if dt = "uint8" then [] else [Finding.patchBadDtype name dt]) ++
      (if shape = expectedShape then [] else [Finding.patchBadShape name shape]) ++
      (let uc := (npUnique px).filter fun v => decide (v ∉ expectedClasses)
       if uc.isEmpty then [] else [Finding.patchBadClasses name uc])

/-- One iteration of the case loop, lines 115-159 of `check.py`.  The
source tests `not case_path.is_dir()` first, so a case path that is a
regular file takes the WARNING missing-folder branch and the
`is_file()` ERROR branch is unreachable.  The unexpected-patches WARNING
prints `list(missing_patches)` — the copy-paste slip of line 138 — which
the embedding reproduces. -/
def caseCheck (σ : SetOrd) (m : Manifest) (c : Nat) (e : CaseEntry) : List Finding :=
  if isDirE e = false then [Finding.segCaseMissing c]
  else if isFileE e = true then [Finding.segCaseIsFile c]
  else
    let pngs := (dirFiles e).filter fun f => strEndsWith f.name ".png"
    let expected := (m c).dedup
    let found := (pngs.map fun f => f.name).dedup
    let missing := expected.filter fun p => decide (p ∉ found)
    let unexpected := found.filter fun p => decide (p ∉ expected)
    (if missing.isEmpty then [] else [Finding.segMissingPatches c (σ missing)]) ++
    (if unexpected.isEmpty then [] else [Finding.segUnexpectedPatches c (σ missing)]) ++
    pngs.flatMap fun f => patchCheck f.name f.img

/-- Number of cases, line 106 of `check.py`. -/
def numCases : Nat := 6

/-- Whole segmentation check, lines 104-162 of `check.py`: the six case
iterations accumulating `any_segmentation_error` (every printed finding
sets it), then the SUCCESS line when the flag stayed false. -/
def segCheck (σ : SetOrd) (m : Manifest) (cs : List CaseEntry) : List Finding × Bool :=
  let r := (List.range numCases).foldl
    (fun acc i =>
      (acc.1 ++ caseCheck σ m (i + 1) (cs.getD i CaseEntry.missing),
        acc.2 || !(caseCheck σ m (i + 1) (cs.getD i CaseEntry.missing)).isEmpty))
    ([], false)
  (r.1 ++ (if r.2 then [] else [Finding.segSuccess]), r.2)

/-- Extracted content of one archive: the classification path and the
six case paths (`cases.getD i missing` is the filesystem state of
`wns_case_{i+1}`; a list shorter than six reads as absent paths). -/
structure ArchiveState where
  classification : ClsPath
  cases : List CaseEntry
  deriving DecidableEq, Repr

/-- One command-line argument, after the filesystem and ZIP layers:
a path that is not a regular file, a regular file that is not a valid
ZIP (`BadZipFile`), or a successfully extracted archive. -/
inductive ArchiveInput where
  | notFound (path : String)
  | badZip (path : String)
  | extracted (path : String) (a : ArchiveState)
  deriving DecidableEq, Repr

/-- Diagnostics of one loop iteration, lines 11-165 of `check.py`, for a
run in which `expected_patches.json` is readable: the banner, then
either the not-found ERROR, the corrupted-ZIP ERROR, or the
classification block, the segmentation block and the overall SUCCESS
line when both flags stayed false. -/
def processArchiveF (σ : SetOrd) (m : Manifest) : ArchiveInput → List Finding
  | ArchiveInput.notFound p => [Finding.header p, Finding.archiveNotFound]
  | ArchiveInput.badZip p => [Finding.header p, Finding.zipCorrupted]
  | ArchiveInput.extracted p a =>
      let rc := clsCheck σ a.classification
      let rs := segCheck σ m a.cases
      Finding.header p ::
        (rc.1 ++ rs.1 ++ (if rc.2 = false ∧ rs.2 = false then [Finding.allSuccess] else []))

/-- The whole run over the command-line arguments.  The manifest is
`none` when `expected_patches.json` is absent from the working
directory: `open` then raises `FileNotFoundError`, which no handler
catches, so the process dies right after the classification block of the
first extracted archive.  The boolean records whether the run aborted
this way. -/
def runAll (σ : SetOrd) (mo : Option Manifest) : List ArchiveInput → List Finding × Bool
  | [] => ([], false)
  | ArchiveInput.notFound p :: rest =>
      let r := runAll σ mo rest
      (Finding.header p :: Finding.archiveNotFound :: r.1, r.2)
  | ArchiveInput.badZip p :: rest =>
      let r := runAll σ mo rest
      (Finding.header p :: Finding.zipCorrupted :: r.1, r.2)
  | ArchiveInput.extracted p a :: rest =>
      match mo with
      | none => (Finding.header p :: (clsCheck σ a.classification).1, true)
      | some m =>
          let r := runAll σ mo rest
          (processArchiveF σ m (ArchiveInput.extracted p a) ++ r.1, r.2)

/-- Sorted copy of a name listing, used to compare diagnostics up to the
set-enumeration order. -/
def sortStr (l : List String) : List String :=
  List.insertionSort (fun a b : String => a ≤ b) l

/-- Normal form of a diagnostic: name listings taken from Python string
sets are sorted, everything else is untouched. -/
def normalizeFinding : Finding → Finding
  | Finding.clsMissingKeys ks => Finding.clsMissingKeys (sortStr ks)
  | Finding.clsUnexpectedKeys ks => Finding.clsUnexpectedKeys (sortStr ks)
  | Finding.segMissingPatches c ps => Finding.segMissingPatches c (sortStr ps)
  | Finding.segUnexpectedPatches c ps => Finding.segUnexpectedPatches c (sortStr ps)
  | f => f

/-- Findings printed by the classification block (including its SUCCESS
line). -/
def isClsFinding : Finding → Bool
  | Finding.clsMissing => true
  | Finding.clsIsDir => true
  | Finding.clsBadUnicode => true
  | Finding.clsBadJson => true
  | Finding.clsMissingKeys _ => true
  | Finding.clsUnexpectedKeys _ => true
  | Finding.clsBadType _ _ => true
  | Finding.clsOutOfRange _ _ => true
  | Finding.clsAucError _ => true
  | Finding.clsSuccess => true
  | _ => false

/-- Findings printed by the segmentation block (including its SUCCESS
line). -/
def isSegFinding : Finding → Bool
  | Finding.segCaseMissing _ => true
  | Finding.segCaseIsFile _ => true
  | Finding.segMissingPatches _ _ => true
  | Finding.segUnexpectedPatches _ _ => true
  | Finding.patchBadDtype _ _ => true
  | Finding.patchBadShape _ _ => true
  | Finding.patchBadClasses _ _ => true
  | Finding.patchInvalid _ => true
  | Finding.segSuccess => true
  | _ => false

/-- A decoded patch that satisfies every per-patch check: uint8 dtype,
shape (3000, 3000), every pixel an allowed class label. -/
def ValidImage : PatchImage → Prop
  | PatchImage.invalid => False
  | PatchImage.image dt shape px =>
      dt = "uint8" ∧ shape = expectedShape ∧ ∀ v ∈ px, v ∈ expectedClasses

instance : (im : PatchImage) → Decidable (ValidImage im)
  | PatchImage.invalid => isFalse fun h => h
  | PatchImage.image dt shape px =>
      inferInstanceAs (Decidable (dt = "uint8" ∧ shape = expectedShape ∧
        ∀ v ∈ px, v ∈ expectedClasses))

/-- A case path that satisfies the claim hypotheses of a fully valid
archive: a directory whose PNG file names are exactly the expected names
of the manifest, every PNG decoding to a valid image. -/
def ValidCase (exp : List String) (e : CaseEntry) : Prop :=
  isDirE e = true ∧
  (((dirFiles e).filter fun f => strEndsWith f.name ".png").map fun f => f.name).Nodup ∧
  (∀ p ∈ exp,
    p ∈ ((dirFiles e).filter fun f => strEndsWith f.name ".png").map fun f => f.name) ∧
  (∀ p ∈ ((dirFiles e).filter fun f => strEndsWith f.name ".png").map fun f => f.name,
    p ∈ exp) ∧
  ∀ f ∈ (dirFiles e).filter fun f => strEndsWith f.name ".png", ValidImage f.img

instance (exp : List String) (e : CaseEntry) : Decidable (ValidCase exp e) :=
  inferInstanceAs (Decidable (_ ∧ _ ∧ _ ∧ _ ∧ _))

/-- A parsed classification dict that satisfies the claim hypotheses of
a fully valid archive: distinct keys forming exactly the expected key
set, every value numeric with numeric value in [0, 1]. -/
def ValidObj (obj : List (String × JValue)) : Prop :=
  (obj.map Prod.fst).Nodup ∧
  (∀ k ∈ obj.map Prod.fst, k ∈ expectedKeysList) ∧
  (∀ k ∈ expectedKeysList, k ∈ obj.map Prod.fst) ∧
  ∀ kv ∈ obj, pyIsNumeric kv.2 = true ∧ 0 ≤ jNum kv.2 ∧ jNum kv.2 ≤ 1

instance (obj : List (String × JValue)) : Decidable (ValidObj obj) :=
  inferInstanceAs (Decidable (_ ∧ _ ∧ _ ∧ _))

/-- The classification path holds a parsed dict satisfying `ValidObj`. -/
def ValidCls : ClsPath → Prop
  | ClsPath.fileEntry (ClsContent.parsed obj) => ValidObj obj
  | _ => False

instance : (c : ClsPath) → Decidable (ValidCls c)
  | ClsPath.absent => isFalse fun h => h
  | ClsPath.dirEntry => isFalse fun h => h
  | ClsPath.fileEntry ClsContent.badUnicode => isFalse fun h => h
  | ClsPath.fileEntry ClsContent.badJson => isFalse fun h => h
  | ClsPath.fileEntry (ClsContent.parsed obj) =>
      inferInstanceAs (Decidable (ValidObj obj))

/-- A fully valid archive with respect to a manifest, as hypothesised by
the claim about the overall SUCCESS line. -/
def ValidArchive (m : Manifest) (a : ArchiveState) : Prop :=
  ValidCls a.classification ∧
  ∀ i ∈ List.range numCases, ValidCase (m (i + 1)) (a.cases.getD i CaseEntry.missing)

instance (m : Manifest) (a : ArchiveState) : Decidable (ValidArchive m a) :=
  inferInstanceAs (Decidable (_ ∧ _))

/-- `set(predictions.keys())`, as the deduplicated key list in insertion
order (the enumeration parameter is applied where the set is listed or
iterated). -/
def keysFoundOf (obj : List (String × JValue)) : List String :=
  (obj.map Prod.fst).dedup

/-- `expected_keys.difference(keys_found)`. -/
def missingOf (obj : List (String × JValue)) : List String :=
  expectedKeysList.filter fun k => decide (k ∉ keysFoundOf obj)

/-- `keys_found.difference(expected_keys)`. -/
def unexpectedOf (obj : List (String × JValue)) : List String :=
  (keysFoundOf obj).filter fun k => decide (k ∉ expectedKeysList)

/-- Findings of the per-key value loop, in the set-enumeration order. -/
def keyBlock (σ : SetOrd) (obj : List (String × JValue)) : List Finding :=
  (σ (keysFoundOf obj)).flatMap fun k => clsKeyFindings k (dictGet obj k)

/-- `any_classification_error` right after the per-key loop. -/
def preFlag (σ : SetOrd) (obj : List (String × JValue)) : Bool :=
  !(missingOf obj).isEmpty || !(unexpectedOf obj).isEmpty ||
    (σ (keysFoundOf obj)).any fun k => !(clsKeyFindings k (dictGet obj k)).isEmpty

/-- Findings of the AUC sanity computation. -/
def aucBlock (σ : SetOrd) (obj : List (String × JValue)) : List Finding :=
  if 2 < obj.length ∧ preFlag σ obj = false then
    match rocAucScore (dummyGt obj.length) (obj.map fun kv => jNum kv.2) with
    | Except.ok _ => []
    | Except.error e => [Finding.clsAucError e]
  else []

/-- `any_classification_error` at the end of the parsed-dict checks. -/
def clsFlagParsed (σ : SetOrd) (obj : List (String × JValue)) : Bool :=
  preFlag σ obj || !(aucBlock σ obj).isEmpty

/-- Findings of the six case iterations (without the SUCCESS line). -/
def segLines (σ : SetOrd) (m : Manifest) (cs : List CaseEntry) : List Finding :=
  (List.range numCases).flatMap fun i => caseCheck σ m (i + 1) (cs.getD i CaseEntry.missing)

/-- `any_segmentation_error` at the end of the case loop. -/
def segFlag (σ : SetOrd) (m : Manifest) (cs : List CaseEntry) : Bool :=
  (List.range numCases).any fun i =>
    !(caseCheck σ m (i + 1) (cs.getD i CaseEntry.missing)).isEmpty

/-- The PNG files `case_path.glob("*.png")` enumerates. -/
def pngsOf (e : CaseEntry) : List PatchFile :=
  (dirFiles e).filter fun f => strEndsWith f.name ".png"

/-- `patches_found`, the set of PNG names of the case directory. -/
def foundOf (e : CaseEntry) : List String :=
  ((pngsOf e).map fun f => f.name).dedup

/-- `expected_patches.difference(patches_found)`. -/
def missPatchOf (m : Manifest) (c : Nat) (e : CaseEntry) : List String :=
  ((m c).dedup).filter fun p => decide (p ∉ foundOf e)

/-- `patches_found.difference(expected_patches)`. -/
def unexpPatchOf (m : Manifest) (c : Nat) (e : CaseEntry) : List String :=
  (foundOf e).filter fun p => decide (p ∉ (m c).dedup)

/-- Example dict holding exactly the 40 expected keys, each scored 0. -/
def exObj40 : List (String × JValue) :=
  expectedKeysList.map fun k => (k, JValue.jint 0)

/-- Example dict with the 40 expected keys and one extra key. -/
def exObj41 : List (String × JValue) :=
  exObj40 ++ [("ZZZZZZZZ", JValue.jint 0)]

/-- Example manifest expecting a single patch `p.png` for every case. -/
def exManifest : Manifest :=
  fun _ => ["p.png"]

/-- Example manifest expecting no patches. -/
def exManifestEmpty : Manifest :=
  fun _ => []

/-- Example valid patch file. -/
def exPatch : PatchFile :=
  { name := "p.png", img := PatchImage.image "uint8" [3000, 3000] [1] }

/-- Example fully valid archive with respect to `exManifest`. -/
def exArchiveValid : ArchiveState :=
  { classification := ClsPath.fileEntry (ClsContent.parsed exObj40),
    cases := List.replicate 6 (CaseEntry.dir [exPatch]) }

/-- Example archive whose classification dict is empty (40 missing keys)
and whose case folders are all absent. -/
def exArchiveEmptyDict : ArchiveState :=
  { classification := ClsPath.fileEntry (ClsContent.parsed []),
    cases := [] }

/-- Example case directory holding the expected `a.png` plus an
unexpected `b.png`, both decoding to valid patches. -/
def exCaseExtra : CaseEntry :=
  CaseEntry.dir
    [{ name := "a.png", img := PatchImage.image "uint8" [3000, 3000] [1] },
     { name := "b.png", img := PatchImage.image "uint8" [3000, 3000] [1] }]

/-- Example manifest expecting only `a.png` for every case. -/
def exManifestA : Manifest :=
  fun _ => ["a.png"]

theorem clsFoldAcc (obj : List (String × JValue)) (ks : List String)
    (init : List Finding × Bool) :
    ks.foldl (fun acc k => (acc.1 ++ clsKeyFindings k (dictGet obj k),
        acc.2 || !(clsKeyFindings k (dictGet obj k)).isEmpty)) init
      = (init.1 ++ ks.flatMap fun k => clsKeyFindings k (dictGet obj k),
          init.2 || ks.any fun k => !(clsKeyFindings k (dictGet obj k)).isEmpty) := by
  induction ks generalizing init with
  | nil => simp
  | cons k ks ih => simp [ih, List.append_assoc, Bool.or_assoc]

theorem segFoldAcc (σ : SetOrd) (m : Manifest) (cs : List CaseEntry) (ks : List Nat)
    (init : List Finding × Bool) :
    ks.foldl (fun acc i => (acc.1 ++ caseCheck σ m (i + 1) (cs.getD i CaseEntry.missing),
        acc.2 || !(caseCheck σ m (i + 1) (cs.getD i CaseEntry.missing)).isEmpty)) init
      = (init.1 ++ ks.flatMap fun i => caseCheck σ m (i + 1) (cs.getD i CaseEntry.missing),
          init.2 || ks.any fun i =>
            !(caseCheck σ m (i + 1) (cs.getD i CaseEntry.missing)).isEmpty) := by
  induction ks generalizing init with
  | nil => simp
  | cons k ks ih =>
      rw [List.foldl_cons, ih]
      simp [List.append_assoc, Bool.or_assoc]

theorem segCheck_eq (σ : SetOrd) (m : Manifest) (cs : List CaseEntry) :
    segCheck σ m cs =
      (segLines σ m cs ++ (if segFlag σ m cs then [] else [Finding.segSuccess]),
        segFlag σ m cs) := by
  simp only [segCheck, segLines, segFlag]
  rw [segFoldAcc]
  simp

theorem clsCheck_parsed (σ : SetOrd) (obj : List (String × JValue)) :
    clsCheck σ (ClsPath.fileEntry (ClsContent.parsed obj)) =
      ((clsParsed σ obj).1 ++ (if (clsParsed σ obj).2 then [] else [Finding.clsSuccess]),
        (clsParsed σ obj).2) := by
  simp [clsCheck, clsIsFile, clsIsDir, clsContent]

theorem clsParsed_eq (σ : SetOrd) (obj : List (String × JValue)) :
    clsParsed σ obj =
      ((if (missingOf obj).isEmpty then [] else [Finding.clsMissingKeys (σ (missingOf obj))]) ++
        (if (unexpectedOf obj).isEmpty then []
          else [Finding.clsUnexpectedKeys (σ (unexpectedOf obj))]) ++
        keyBlock σ obj ++ aucBlock σ obj,
        clsFlagParsed σ obj) := by
  simp only [clsParsed, keysFoundOf, missingOf, unexpectedOf, keyBlock, aucBlock, clsFlagParsed,
    preFlag]
  rw [clsFoldAcc]
  by_cases h1 : (expectedKeysList.filter fun k => decide (k ∉ (obj.map Prod.fst).dedup)).isEmpty <;>
    by_cases h2 :
      (((obj.map Prod.fst).dedup).filter fun k => decide (k ∉ expectedKeysList)).isEmpty <;>
    by_cases h3 : ((σ ((obj.map Prod.fst).dedup)).any fun k =>
      !(clsKeyFindings k (dictGet obj k)).isEmpty) = true <;>
    by_cases h4 : 2 < obj.length <;>
    simp only [h1, h2, h3, h4, if_true, if_false, Bool.not_true, Bool.not_false, Bool.or_true,
      Bool.true_or, Bool.false_or, Bool.or_false, eq_self_iff_true, true_and, false_and, and_true,
      and_false, if_neg, Bool.true_eq_false, Bool.false_eq_true] <;>
    cases hr : rocAucScore (dummyGt obj.length) (obj.map fun kv => jNum kv.2) <;>
    simp_all

theorem mem_clsKeyFindings {k : String} {v : JValue} {f : Finding}
    (h : f ∈ clsKeyFindings k v) :
    f = Finding.clsBadType k (pyTypeName v) ∨ f = Finding.clsOutOfRange k (jNum v) := by
  unfold clsKeyFindings at h
  split at h
  · simp_all
  · split at h <;> simp_all

theorem dictGet_of_mem {obj : List (String × JValue)} {k : String} {v : JValue}
    (hn : (obj.map Prod.fst).Nodup) (hm : (k, v) ∈ obj) : dictGet obj k = v := by
  induction obj with
  | nil => cases hm
  | cons kv rest ih =>
      obtain ⟨k0, v0⟩ := kv
      simp only [List.map_cons, List.nodup_cons] at hn
      rcases List.mem_cons.mp hm with h | h
      · obtain ⟨rfl, rfl⟩ := Prod.mk.injEq .. |>.mp h
        simp [dictGet]
      · have hk : k ≠ k0 := by
          rintro rfl
          exact hn.1 (List.mem_map.mpr ⟨(k, v), h, rfl⟩)
        simpa [dictGet, hk] using ih hn.2 h

theorem clsKeyFindings_of_valid {k : String} {v : JValue} (ht : pyIsNumeric v = true)
    (h0 : 0 ≤ jNum v) (h1 : jNum v ≤ 1) : clsKeyFindings k v = [] := by
  simp [clsKeyFindings, ht, not_lt.mpr h0, not_lt.mpr h1]

theorem rocAucScore_dummy_ok (scores : List Rat) (h2 : 2 ≤ scores.length) :
    isOkE (rocAucScore (dummyGt scores.length) scores) = true := by
  cases scores with
  | nil => simp at h2
  | cons s rest =>
      cases rest with
      | nil => simp at h2
      | cons s2 rest2 =>
          have e1 : ((s :: s2 :: rest2).length - 1) = rest2.length + 1 := by simp
          unfold rocAucScore dummyGt
          rw [e1]
          rw [if_neg (by simp)]
          simp [List.replicate_succ, List.filter_cons, isOkE]

theorem clsParsed_of_valid {σ : SetOrd} {obj : List (String × JValue)} (hσ : PySetOrd σ)
    (hv : ValidObj obj) : clsParsed σ obj = ([], false) := by
  obtain ⟨hn, hsub, hsup, hval⟩ := hv
  have hkeys : keysFoundOf obj = obj.map Prod.fst := by
    simpa [keysFoundOf] using List.dedup_eq_self.mpr hn
  have hmiss : missingOf obj = [] := by
    apply List.filter_eq_nil_iff.mpr
    intro k hk
    simp only [decide_eq_true_eq, not_not]
    rw [hkeys]
    exact hsup k hk
  have hunexp : unexpectedOf obj = [] := by
    apply List.filter_eq_nil_iff.mpr
    intro k hk
    rw [hkeys] at hk
    simp only [decide_eq_true_eq, not_not]
    exact hsub k hk
  have hkeyfind : ∀ k ∈ σ (keysFoundOf obj), clsKeyFindings k (dictGet obj k) = [] := by
    intro k hk
    have hk2 : k ∈ keysFoundOf obj := (hσ (keysFoundOf obj)).mem_iff.mp hk
    rw [hkeys] at hk2
    obtain ⟨kv, hkv, rfl⟩ := List.mem_map.mp hk2
    have hg : dictGet obj kv.1 = kv.2 := by
      apply dictGet_of_mem hn
      cases kv
      exact hkv
    rw [hg]
    obtain ⟨ht, h0, h1⟩ := hval kv hkv
    exact clsKeyFindings_of_valid ht h0 h1
  have hkb : keyBlock σ obj = [] := by
    apply List.flatMap_eq_nil_iff.mpr
    exact hkeyfind
  have hpre : preFlag σ obj = false := by
    simp only [preFlag, hmiss, hunexp, List.isEmpty_nil, Bool.not_true, Bool.false_or]
    apply List.any_eq_false.mpr
    intro k hk
    simp [hkeyfind k hk]
  have hlen : obj.length = 40 := by
    have hen : expectedKeysList.Nodup := by decide
    have hp1 : (obj.map Prod.fst).Subperm expectedKeysList :=
      hn.subperm fun k hk => hsub k hk
    have hp2 : expectedKeysList.Subperm (obj.map Prod.fst) :=
      hen.subperm fun k hk => hsup k hk
    have hperm := hp1.antisymm hp2
    have h40 : (obj.map Prod.fst).length = expectedKeysList.length := hperm.length_eq
    simpa using h40
  have hauc : aucBlock σ obj = [] := by
    unfold aucBlock
    rw [if_pos ⟨by omega, hpre⟩]
    have hok := rocAucScore_dummy_ok (obj.map fun kv => jNum kv.2) (by simp [hlen])
    rw [show (obj.map fun kv => jNum kv.2).length = obj.length from by simp] at hok
    cases hr : rocAucScore (dummyGt obj.length) (obj.map fun kv => jNum kv.2) with
    | ok r => rfl
    | error e => rw [hr] at hok; simp [isOkE] at hok
  rw [clsParsed_eq]
  simp [hmiss, hunexp, hkb, hauc, clsFlagParsed, hpre]

theorem clsCheck_of_valid {σ : SetOrd} {c : ClsPath} (hσ : PySetOrd σ) (hv : ValidCls c) :
    clsCheck σ c = ([Finding.clsSuccess], false) := by
  match c with
  | ClsPath.absent => exact absurd hv (by simp [ValidCls])
  | ClsPath.dirEntry => exact absurd hv (by simp [ValidCls])
  | ClsPath.fileEntry ClsContent.badUnicode => exact absurd hv (by simp [ValidCls])
  | ClsPath.fileEntry ClsContent.badJson => exact absurd hv (by simp [ValidCls])
  | ClsPath.fileEntry (ClsContent.parsed obj) =>
      rw [clsCheck_parsed, clsParsed_of_valid hσ hv]
      simp

theorem patchCheck_of_valid {name : String} {img : PatchImage} (hv : ValidImage img) :
    patchCheck name img = [] := by
  match img with
  | PatchImage.invalid => exact absurd hv (by simp [ValidImage])
  | PatchImage.image dt shape px =>
      obtain ⟨hdt, hsh, hpx⟩ := hv
      simp only [patchCheck, hdt, hsh]
      simp
      intro v hvu
      have h1 : v ∈ px.dedup := by
        simpa [npUnique, List.mem_insertionSort] using hvu
      exact hpx v (List.mem_dedup.mp h1)

theorem caseCheck_of_valid {σ : SetOrd} {m : Manifest} {c : Nat} {e : CaseEntry}
    (hv : ValidCase (m c) e) : caseCheck σ m c e = [] := by
  obtain ⟨hd, hnodup, hsup, hsub, himg⟩ := hv
  match e with
  | CaseEntry.missing => simp [isDirE] at hd
  | CaseEntry.file => simp [isDirE] at hd
  | CaseEntry.dir files =>
      simp only [dirFiles] at hnodup hsup hsub himg
      have hmiss : ((m c).dedup.filter fun p =>
          decide (p ∉ ((files.filter fun f => strEndsWith f.name ".png").map
            fun f => f.name).dedup)) = [] := by
        apply List.filter_eq_nil_iff.mpr
        intro p hp
        simp only [decide_eq_true_eq, not_not]
        exact List.mem_dedup.mpr (hsup p (List.mem_dedup.mp hp))
      have hunexp : ((((files.filter fun f => strEndsWith f.name ".png").map
          fun f => f.name).dedup).filter fun p => decide (p ∉ (m c).dedup)) = [] := by
        apply List.filter_eq_nil_iff.mpr
        intro p hp
        simp only [decide_eq_true_eq, not_not]
        exact List.mem_dedup.mpr (hsub p (List.mem_dedup.mp hp))
      have hpatches : ((files.filter fun f => strEndsWith f.name ".png").flatMap
          fun f => patchCheck f.name f.img) = [] := by
        apply List.flatMap_eq_nil_iff.mpr
        intro f hf
        exact patchCheck_of_valid (himg f hf)
      simp [caseCheck, isDirE, isFileE, hmiss, hunexp, hpatches]
      refine ⟨?_, ?_, ?_⟩
      · intro p hp
        have h1 := hsup p hp
        simp only [List.mem_map, List.mem_filter] at h1
        obtain ⟨f, ⟨hf1, hf2⟩, hf3⟩ := h1
        exact ⟨f, by simpa [dirFiles] using hf1, hf2, hf3⟩
      · intro p f hf hpng hname
        apply hsub
        subst hname
        exact List.mem_map.mpr
          ⟨f, List.mem_filter.mpr ⟨by simpa [dirFiles] using hf, hpng⟩, rfl⟩
      · intro f hf hpng
        exact patchCheck_of_valid
          (himg f (List.mem_filter.mpr ⟨by simpa [dirFiles] using hf, hpng⟩))

theorem segCheck_of_valid {σ : SetOrd} {m : Manifest} {cs : List CaseEntry}
    (hv : ∀ i ∈ List.range numCases, ValidCase (m (i + 1)) (cs.getD i CaseEntry.missing)) :
    segCheck σ m cs = ([Finding.segSuccess], false) := by
  have hlines : segLines σ m cs = [] := by
    apply List.flatMap_eq_nil_iff.mpr
    intro i hi
    exact caseCheck_of_valid (hv i hi)
  have hflag : segFlag σ m cs = false := by
    apply List.any_eq_false.mpr
    intro i hi
    have h := caseCheck_of_valid (σ := σ) (hv i hi)
    rw [List.getD_eq_getElem?_getD] at h
    simp [h]
  rw [segCheck_eq, hlines, hflag]
  simp

theorem validObj_length {obj : List (String × JValue)} (hv : ValidObj obj) :
    obj.length = 40 := by
  obtain ⟨hn, hsub, hsup, _⟩ := hv
  have hen : expectedKeysList.Nodup := by decide
  have hp1 : (obj.map Prod.fst).Subperm expectedKeysList :=
    hn.subperm fun k hk => hsub k hk
  have hp2 : expectedKeysList.Subperm (obj.map Prod.fst) :=
    hen.subperm fun k hk => hsup k hk
  have h40 : (obj.map Prod.fst).length = expectedKeysList.length := (hp1.antisymm hp2).length_eq
  simpa using h40

/-- Claim C1: for every archive that is fully valid (classification.json
has exactly the 40 expected keys with numeric values in [0, 1], all 6
case folders hold exactly their manifest patches, every patch is a uint8
(3000, 3000) image with labels in 1..10), the program prints no
ERROR-severity line for that archive, and the output of that archive ends with
the line `SUCCESS:<tab>The submission is completely valid!`. -/
theorem C1_fully_valid_archive_success (σ : SetOrd) (m : Manifest) (p : String)
    (a : ArchiveState) (hσ : PySetOrd σ) (hv : ValidArchive m a) :
    processArchiveF σ m (ArchiveInput.extracted p a) =
      [Finding.header p, Finding.clsSuccess, Finding.segSuccess, Finding.allSuccess] ∧
    (∀ f ∈ processArchiveF σ m (ArchiveInput.extracted p a), sev f ≠ Severity.error) ∧
    ((processArchiveF σ m (ArchiveInput.extracted p a)).map render).getLast? =
      some "\tSUCCESS:\tThe submission is completely valid!" := by
  obtain ⟨hc, hs⟩ := hv
  have h1 : clsCheck σ a.classification = ([Finding.clsSuccess], false) :=
    clsCheck_of_valid hσ hc
  have h2 : segCheck σ m a.cases = ([Finding.segSuccess], false) := segCheck_of_valid hs
  have heq : processArchiveF σ m (ArchiveInput.extracted p a) =
      [Finding.header p, Finding.clsSuccess, Finding.segSuccess, Finding.allSuccess] := by
    simp [processArchiveF, h1, h2]
  refine ⟨heq, ?_, ?_⟩
  · rw [heq]
    intro f hf
    simp only [List.mem_cons, List.not_mem_nil, or_false] at hf
    rcases hf with rfl | rfl | rfl | rfl <;> intro hcon <;> simp [sev] at hcon
  · rw [heq]
    rfl

theorem C1_fully_valid_archive_success_witness :
    PySetOrd id ∧ ValidArchive exManifest exArchiveValid ∧
      processArchiveF id exManifest (ArchiveInput.extracted "submission.zip" exArchiveValid) =
        [Finding.header "submission.zip", Finding.clsSuccess, Finding.segSuccess,
          Finding.allSuccess] :=
  ⟨fun l => List.Perm.refl l, by decide,
    (C1_fully_valid_archive_success id exManifest "submission.zip" exArchiveValid
      (fun l => List.Perm.refl l) (by decide)).1⟩

/-- Claim C6: for every classification.json parsing to a JSON object
with exactly the 40 expected keys, all values numeric in [0, 1] (hence
more than 2 entries), the AUC sanity computation runs and completes
without raising, and the classification SUCCESS line is emitted. -/
theorem C6_auc_ok_and_cls_success (σ : SetOrd) (obj : List (String × JValue))
    (hσ : PySetOrd σ) (hv : ValidObj obj) :
    2 < obj.length ∧
    isOkE (rocAucScore (dummyGt obj.length) (obj.map fun kv => jNum kv.2)) = true ∧
    clsCheck σ (ClsPath.fileEntry (ClsContent.parsed obj)) =
      ([Finding.clsSuccess], false) := by
  have hlen := validObj_length hv
  refine ⟨by omega, ?_, clsCheck_of_valid hσ hv⟩
  have hok := rocAucScore_dummy_ok (obj.map fun kv => jNum kv.2) (by simp [hlen])
  rwa [show (obj.map fun kv => jNum kv.2).length = obj.length from by simp] at hok

theorem C6_auc_ok_and_cls_success_witness :
    PySetOrd id ∧ ValidObj exObj40 ∧
      clsCheck id (ClsPath.fileEntry (ClsContent.parsed exObj40)) =
        ([Finding.clsSuccess], false) :=
  ⟨fun l => List.Perm.refl l, by decide,
    (C6_auc_ok_and_cls_success id exObj40 (fun l => List.Perm.refl l) (by decide)).2.2⟩

/-- Claim C9 (implicit): a boolean JSON value passes the numeric type
check (Python bool is a subclass of int) and the range check (True == 1,
False == 0), so a boolean value yields neither an ERROR nor a WARNING
from the per-key value checks. -/
theorem C9_bool_value_accepted (k : String) (b : Bool) :
    pyIsNumeric (JValue.jbool b) = true ∧
    decide (jNum (JValue.jbool b) < 0 ∨ 1 < jNum (JValue.jbool b)) = false ∧
    clsKeyFindings k (JValue.jbool b) = [] := by
  refine ⟨rfl, ?_, ?_⟩ <;> cases b <;> simp [jNum, clsKeyFindings, pyIsNumeric]

theorem runAll_some_not_aborted (σ : SetOrd) (m : Manifest) (l : List ArchiveInput) :
    (runAll σ (some m) l).2 = false := by
  induction l with
  | nil => rfl
  | cons x rest ih => cases x <;> simp [runAll, ih]

/-- Claim C7: a supplied path that is a regular file but not a valid ZIP
yields exactly one corrupted-ZIP ERROR line for that archive, no
classification or segmentation findings, and the run continues with the
remaining archives (and never aborts while the manifest is present). -/
theorem C7_corrupted_zip_isolated (σ : SetOrd) (m : Manifest) (p : String)
    (rest : List ArchiveInput) :
    processArchiveF σ m (ArchiveInput.badZip p) =
      [Finding.header p, Finding.zipCorrupted] ∧
    ((processArchiveF σ m (ArchiveInput.badZip p)).filter fun f =>
        decide (sev f = Severity.error)) = [Finding.zipCorrupted] ∧
    (∀ f ∈ processArchiveF σ m (ArchiveInput.badZip p),
        isClsFinding f = false ∧ isSegFinding f = false) ∧
    (runAll σ (some m) (ArchiveInput.badZip p :: rest)).1 =
      Finding.header p :: Finding.zipCorrupted :: (runAll σ (some m) rest).1 ∧
    (runAll σ (some m) (ArchiveInput.badZip p :: rest)).2 = false := by
  refine ⟨rfl, rfl, ?_, rfl, runAll_some_not_aborted σ m _⟩
  intro f hf
  simp only [processArchiveF, List.mem_cons, List.not_mem_nil, or_false] at hf
  rcases hf with rfl | rfl <;> exact ⟨rfl, rfl⟩

theorem isClsFinding_props {f : Finding} (h : isClsFinding f = true) :
    isSegFinding f = false ∧ f ≠ Finding.allSuccess := by
  cases f <;> simp_all [isClsFinding, isSegFinding]

theorem isClsFinding_clsCheck {σ : SetOrd} {c : ClsPath} {f : Finding}
    (hf : f ∈ (clsCheck σ c).1) : isClsFinding f = true := by
  match c with
  | ClsPath.absent =>
      simp [clsCheck, clsIsFile, clsIsDir, clsContent] at hf
      subst hf; rfl
  | ClsPath.dirEntry =>
      simp [clsCheck, clsIsFile, clsIsDir, clsContent] at hf
      subst hf; rfl
  | ClsPath.fileEntry ClsContent.badUnicode =>
      simp [clsCheck, clsIsFile, clsIsDir, clsContent] at hf
      subst hf; rfl
  | ClsPath.fileEntry ClsContent.badJson =>
      simp [clsCheck, clsIsFile, clsIsDir, clsContent] at hf
      subst hf; rfl
  | ClsPath.fileEntry (ClsContent.parsed obj) =>
      rw [clsCheck_parsed] at hf
      rcases List.mem_append.mp hf with hf | hf
      · rw [clsParsed_eq] at hf
        simp only [List.append_assoc, List.mem_append] at hf
        rcases hf with hf | hf | hf | hf
        · split at hf <;> simp_all [isClsFinding]
        · split at hf <;> simp_all [isClsFinding]
        · obtain ⟨k, hk, hfk⟩ := List.mem_flatMap.mp hf
          rcases mem_clsKeyFindings hfk with rfl | rfl <;> rfl
        · unfold aucBlock at hf
          split at hf
          · split at hf <;> simp_all [isClsFinding]
          · simp at hf
      · split at hf <;> simp_all [isClsFinding]

/-- Claim C10 (implicit): when `expected_patches.json` is absent from
the working directory, the run dies from the uncaught open failure while
processing the first successfully extracted archive: the abort flag is
set, the output stops after the classification block of that archive (no
segmentation finding, no overall SUCCESS), and every remaining supplied
archive is left unprocessed; archives rejected earlier (for example a
corrupted ZIP) are still handled and do not touch the manifest. -/
theorem C10_missing_manifest_aborts (σ : SetOrd) (p : String) (a : ArchiveState)
    (rest : List ArchiveInput) :
    (runAll σ none (ArchiveInput.extracted p a :: rest)).2 = true ∧
    (runAll σ none (ArchiveInput.extracted p a :: rest)).1 =
      (runAll σ none [ArchiveInput.extracted p a]).1 ∧
    (∀ f ∈ (runAll σ none (ArchiveInput.extracted p a :: rest)).1,
        isSegFinding f = false ∧ f ≠ Finding.allSuccess) ∧
    (runAll σ none (ArchiveInput.badZip p :: rest)).1 =
      Finding.header p :: Finding.zipCorrupted :: (runAll σ none rest).1 := by
  refine ⟨rfl, rfl, ?_, rfl⟩
  intro f hf
  simp only [runAll, List.mem_cons] at hf
  rcases hf with rfl | hf
  · exact ⟨rfl, by simp⟩
  · exact isClsFinding_props (isClsFinding_clsCheck hf)

theorem clsSuccess_not_mem_clsParsed {σ : SetOrd} {obj : List (String × JValue)} :
    Finding.clsSuccess ∉ (clsParsed σ obj).1 := by
  rw [clsParsed_eq]
  intro h
  simp only [List.append_assoc, List.mem_append] at h
  rcases h with h | h | h | h
  · split at h <;> simp_all
  · split at h <;> simp_all
  · obtain ⟨k, hk, hfk⟩ := List.mem_flatMap.mp h
    rcases mem_clsKeyFindings hfk with h2 | h2 <;> simp at h2
  · unfold aucBlock at h
    split at h
    · split at h <;> simp_all
    · simp at h

/-- Claim C4: a classification dict holding all 40 expected keys plus
the extra key `ZZZZZZZZ`, all values valid, produces a WARNING naming
`ZZZZZZZZ` as unexpected and no classification SUCCESS line (the
category is marked failed). -/
theorem C4_extra_key_warns_no_success (σ : SetOrd) (obj : List (String × JValue))
    (hσ : PySetOrd σ) (hn : (obj.map Prod.fst).Nodup)
    (hkeys1 : ∀ k ∈ obj.map Prod.fst, k ∈ "ZZZZZZZZ" :: expectedKeysList)
    (hkeys2 : ∀ k ∈ "ZZZZZZZZ" :: expectedKeysList, k ∈ obj.map Prod.fst)
    (hval : ∀ kv ∈ obj, pyIsNumeric kv.2 = true ∧ 0 ≤ jNum kv.2 ∧ jNum kv.2 ≤ 1) :
    (∃ ks, Finding.clsUnexpectedKeys ks ∈
        (clsCheck σ (ClsPath.fileEntry (ClsContent.parsed obj))).1 ∧ "ZZZZZZZZ" ∈ ks) ∧
    Finding.clsSuccess ∉ (clsCheck σ (ClsPath.fileEntry (ClsContent.parsed obj))).1 := by
  have hzin : "ZZZZZZZZ" ∈ keysFoundOf obj := by
    simp only [keysFoundOf, List.mem_dedup]
    exact hkeys2 _ (List.mem_cons_self _ _)
  have hzu : "ZZZZZZZZ" ∈ unexpectedOf obj := by
    simp only [unexpectedOf, List.mem_filter]
    exact ⟨hzin, by decide⟩
  have hune : (unexpectedOf obj).isEmpty = false := by
    rw [List.isEmpty_eq_false]
    intro hcon
    rw [hcon] at hzu
    cases hzu
  have hflag : (clsParsed σ obj).2 = true := by
    rw [clsParsed_eq]
    simp [clsFlagParsed, preFlag, hune]
  have hmem : Finding.clsUnexpectedKeys (σ (unexpectedOf obj)) ∈ (clsParsed σ obj).1 := by
    rw [clsParsed_eq]
    simp only [List.append_assoc, List.mem_append]
    right; left
    rw [if_neg (by simp [hune])]
    simp
  constructor
  · refine ⟨σ (unexpectedOf obj), ?_, (hσ _).mem_iff.mpr hzu⟩
    rw [clsCheck_parsed]
    exact List.mem_append_left _ hmem
  · rw [clsCheck_parsed, hflag]
    simp only [if_true, List.append_nil]
    exact clsSuccess_not_mem_clsParsed

theorem C4_extra_key_warns_no_success_witness :
    (exObj41.map Prod.fst).Nodup ∧
    (∃ ks, Finding.clsUnexpectedKeys ks ∈
        (clsCheck id (ClsPath.fileEntry (ClsContent.parsed exObj41))).1 ∧ "ZZZZZZZZ" ∈ ks) ∧
    Finding.clsSuccess ∉ (clsCheck id (ClsPath.fileEntry (ClsContent.parsed exObj41))).1 := by
  have h := C4_extra_key_warns_no_success id exObj41 (fun l => List.Perm.refl l)
    (by decide) (by decide) (by decide) (by decide)
  exact ⟨by decide, h.1, h.2⟩

theorem patchCheck_mem_props {name : String} {img : PatchImage} {f : Finding}
    (hf : f ∈ patchCheck name img) : sev f ≠ Severity.success ∧ isSegFinding f = true := by
  match img with
  | PatchImage.invalid =>
      simp only [patchCheck, List.mem_singleton] at hf
      subst hf
      exact ⟨by simp [sev], rfl⟩
  | PatchImage.image dt shape px =>
      simp only [patchCheck, List.append_assoc, List.mem_append] at hf
      rcases hf with hf | hf | hf
      · split at hf <;> simp_all [sev, isSegFinding]
      · split at hf <;> simp_all [sev, isSegFinding]
      · split at hf <;> simp_all [sev, isSegFinding]

theorem caseCheck_mem_props {σ : SetOrd} {m : Manifest} {c : Nat} {e : CaseEntry} {f : Finding}
    (hf : f ∈ caseCheck σ m c e) : sev f ≠ Severity.success ∧ isSegFinding f = true := by
  unfold caseCheck at hf
  split at hf
  · simp only [List.mem_singleton] at hf
    subst hf
    exact ⟨by simp [sev], rfl⟩
  · split at hf
    · simp only [List.mem_singleton] at hf
      subst hf
      exact ⟨by simp [sev], rfl⟩
    · simp only [List.append_assoc, List.mem_append] at hf
      rcases hf with hf | hf | hf
      · split at hf <;> simp_all [sev, isSegFinding]
      · split at hf <;> simp_all [sev, isSegFinding]
      · obtain ⟨g, hg, hfg⟩ := List.mem_flatMap.mp hf
        exact patchCheck_mem_props hfg

theorem segCheck_flag_iff (σ : SetOrd) (m : Manifest) (cs : List CaseEntry) :
    (segCheck σ m cs).2 = true ↔
      ∃ f ∈ (segCheck σ m cs).1, sev f ≠ Severity.success := by
  rw [segCheck_eq]
  constructor
  · intro hfl
    obtain ⟨i, hi, hne⟩ := List.any_eq_true.mp hfl
    have hne2 : caseCheck σ m (i + 1) (cs.getD i CaseEntry.missing) ≠ [] := by
      simpa using hne
    obtain ⟨f, hf⟩ := List.exists_mem_of_ne_nil _ hne2
    refine ⟨f, ?_, (caseCheck_mem_props hf).1⟩
    apply List.mem_append_left
    exact List.mem_flatMap.mpr ⟨i, hi, hf⟩
  · intro ⟨f, hf, hsev⟩
    by_contra hfl
    have hfl2 : segFlag σ m cs = false := by
      simpa using hfl
    have hempty : ∀ i ∈ List.range numCases,
        caseCheck σ m (i + 1) (cs.getD i CaseEntry.missing) = [] := by
      intro i hi
      have := List.any_eq_false.mp hfl2 i hi
      simpa using this
    have hlines : segLines σ m cs = [] := List.flatMap_eq_nil_iff.mpr hempty
    rw [hfl2, hlines] at hf
    simp only [List.nil_append, if_neg Bool.false_ne_true, List.mem_singleton] at hf
    subst hf
    exact hsev rfl

theorem clsCheck_flag_iff (σ : SetOrd) (c : ClsPath) :
    (clsCheck σ c).2 = true ↔
      ∃ f ∈ (clsCheck σ c).1, sev f ≠ Severity.success := by
  match c with
  | ClsPath.absent =>
      simp [clsCheck, clsIsFile, clsIsDir, clsContent, sev]
  | ClsPath.dirEntry =>
      simp [clsCheck, clsIsFile, clsIsDir, clsContent, sev]
  | ClsPath.fileEntry ClsContent.badUnicode =>
      simp [clsCheck, clsIsFile, clsIsDir, clsContent, sev]
  | ClsPath.fileEntry ClsContent.badJson =>
      simp [clsCheck, clsIsFile, clsIsDir, clsContent, sev]
  | ClsPath.fileEntry (ClsContent.parsed obj) =>
      rw [clsCheck_parsed]
      constructor
      · intro hfl
        rw [clsParsed_eq] at hfl ⊢
        simp only [clsFlagParsed, preFlag, Bool.or_eq_true, Bool.not_eq_true] at hfl
        rcases hfl with ((hm | hu) | hany) | hauc
        · have hm2 : (missingOf obj).isEmpty = false := by simpa using hm
          refine ⟨Finding.clsMissingKeys (σ (missingOf obj)), ?_, by simp [sev]⟩
          apply List.mem_append_left
          simp only [List.append_assoc, List.mem_append]
          left
          rw [if_neg (by simp [hm2])]
          simp
        · have hu2 : (unexpectedOf obj).isEmpty = false := by simpa using hu
          refine ⟨Finding.clsUnexpectedKeys (σ (unexpectedOf obj)), ?_, by simp [sev]⟩
          apply List.mem_append_left
          simp only [List.append_assoc, List.mem_append]
          right; left
          rw [if_neg (by simp [hu2])]
          simp
        · obtain ⟨k, hk, hne⟩ := List.any_eq_true.mp hany
          have hne2 : clsKeyFindings k (dictGet obj k) ≠ [] := by simpa using hne
          obtain ⟨f, hf⟩ := List.exists_mem_of_ne_nil _ hne2
          refine ⟨f, ?_, ?_⟩
          · apply List.mem_append_left
            simp only [List.append_assoc, List.mem_append]
            right; right; left
            exact List.mem_flatMap.mpr ⟨k, hk, hf⟩
          · rcases mem_clsKeyFindings hf with rfl | rfl <;> simp [sev]
        · have hne2 : aucBlock σ obj ≠ [] := by simpa using hauc
          obtain ⟨f, hf⟩ := List.exists_mem_of_ne_nil _ hne2
          have hfa : f = Finding.clsAucError
              (match rocAucScore (dummyGt obj.length) (obj.map fun kv => jNum kv.2) with
                | Except.ok _ => ""
                | Except.error e => e) ∨ sev f = Severity.error := by
            right
            unfold aucBlock at hf
            split at hf
            · split at hf <;> simp_all [sev]
            · simp at hf
          refine ⟨f, ?_, ?_⟩
          · apply List.mem_append_left
            simp only [List.append_assoc, List.mem_append]
            right; right; right
            exact hf
          · rcases hfa with h | h
            · subst h; simp [sev]
            · rw [h]; simp
      · intro ⟨f, hf, hsev⟩
        by_contra hfl
        have hfl2 : (clsParsed σ obj).2 = false := by simpa using hfl
        have hlines : (clsParsed σ obj).1 = [] := by
          rw [clsParsed_eq] at hfl2 ⊢
          simp only [clsFlagParsed, preFlag, Bool.or_eq_false_iff, Bool.not_eq_false] at hfl2
          obtain ⟨⟨⟨hm, hu⟩, hany⟩, hauc⟩ := hfl2
          have hkb : keyBlock σ obj = [] := by
            apply List.flatMap_eq_nil_iff.mpr
            intro k hk
            have := List.any_eq_false.mp hany k hk
            simpa using this
          have hab : aucBlock σ obj = [] := by simpa using hauc
          have hm2 : missingOf obj = [] := by simpa using hm
          have hu2 : unexpectedOf obj = [] := by simpa using hu
          simp [hm2, hu2, hkb, hab]
        rw [hfl2, hlines] at hf
        simp only [List.nil_append, if_neg Bool.false_ne_true, List.mem_singleton] at hf
        subst hf
        exact hsev rfl

/-- Claim C3 (amended): in both categories the boolean failure flag is
set exactly when the block printed any non-SUCCESS finding — warnings of
either category set the flag just like errors do, so a warning alone
suppresses the SUCCESS line of the category. -/
theorem C3_flag_iff_any_finding (σ : SetOrd) (c : ClsPath) (m : Manifest)
    (cs : List CaseEntry) :
    ((clsCheck σ c).2 = true ↔ ∃ f ∈ (clsCheck σ c).1, sev f ≠ Severity.success) ∧
    ((segCheck σ m cs).2 = true ↔ ∃ f ∈ (segCheck σ m cs).1, sev f ≠ Severity.success) :=
  ⟨clsCheck_flag_iff σ c, segCheck_flag_iff σ m cs⟩

/-- Claim C3 counterexample: an archive whose six case folders are all
absent produces only WARNING findings, yet the segmentation flag is set
and the segmentation SUCCESS line is suppressed — refuting the claim
that warning-severity findings never set the per-category flag. -/
theorem C3_warning_sets_flag_counterexample :
    (∀ f ∈ (segCheck id exManifestEmpty []).1, sev f = Severity.warning) ∧
    (segCheck id exManifestEmpty []).2 = true ∧
    Finding.segSuccess ∉ (segCheck id exManifestEmpty []).1 := by decide

/-- Claim C2, evaluated at the failing input: with the expected `a.png`
present and an unexpected `b.png` also present (nothing missing), the
unexpected-patches WARNING carries `list(missing_patches)` — here the
empty list — instead of the unexpected names, reproducing the
copy-paste slip at line 138 of `check.py`; the claim that the warning
lists exactly the unexpected filenames fails on the code. -/
theorem C2_unexpected_warning_lists_missing :
    caseCheck id exManifestA 1 exCaseExtra = [Finding.segUnexpectedPatches 1 []] ∧
    Finding.segUnexpectedPatches 1 ["b.png"] ∉ caseCheck id exManifestA 1 exCaseExtra ∧
    sev (Finding.segUnexpectedPatches 1 []) = Severity.warning := by decide

/-- Claim C5, evaluated at the failing input: when the path
`wns_case_01` is a regular file, `not case_path.is_dir()` is true, so
the WARNING missing-folder branch fires and the ERROR `is a file`
branch is unreachable; the segmentation flag is still set.  The claim
that a plain file yields an ERROR-severity finding fails on the code. -/
theorem C5_case_as_file_gets_warning :
    (segCheck id exManifestEmpty [CaseEntry.file]).1 =
      [Finding.segCaseMissing 1, Finding.segCaseMissing 2, Finding.segCaseMissing 3,
        Finding.segCaseMissing 4, Finding.segCaseMissing 5, Finding.segCaseMissing 6] ∧
    sev (Finding.segCaseMissing 1) = Severity.warning ∧
    Finding.segCaseIsFile 1 ∉ (segCheck id exManifestEmpty [CaseEntry.file]).1 ∧
    (∀ f ∈ (segCheck id exManifestEmpty [CaseEntry.file]).1, sev f ≠ Severity.error) ∧
    (segCheck id exManifestEmpty [CaseEntry.file]).2 = true := by decide

theorem sortStr_eq_of_perm {l1 l2 : List String} (h : List.Perm l1 l2) :
    sortStr l1 = sortStr l2 :=
  List.eq_of_perm_of_sorted
    ((List.perm_insertionSort _ l1).trans (h.trans (List.perm_insertionSort _ l2).symm))
    (List.sorted_insertionSort _ l1) (List.sorted_insertionSort _ l2)

theorem perm_any_eq {α : Type} {l1 l2 : List α} (h : List.Perm l1 l2) (p : α → Bool) :
    l1.any p = l2.any p := by
  cases hb : l2.any p
  · rw [List.any_eq_false] at hb ⊢
    intro x hx
    exact hb x (h.mem_iff.mp hx)
  · rw [List.any_eq_true] at hb ⊢
    obtain ⟨x, hx, hp⟩ := hb
    exact ⟨x, h.mem_iff.mpr hx, hp⟩

theorem preFlag_congr {σ1 σ2 : SetOrd} (h1 : PySetOrd σ1) (h2 : PySetOrd σ2)
    (obj : List (String × JValue)) : preFlag σ1 obj = preFlag σ2 obj := by
  unfold preFlag
  rw [perm_any_eq ((h1 (keysFoundOf obj)).trans (h2 (keysFoundOf obj)).symm)]

theorem aucBlock_congr {σ1 σ2 : SetOrd} (h1 : PySetOrd σ1) (h2 : PySetOrd σ2)
    (obj : List (String × JValue)) : aucBlock σ1 obj = aucBlock σ2 obj := by
  unfold aucBlock
  rw [preFlag_congr h1 h2]

theorem clsFlagParsed_congr {σ1 σ2 : SetOrd} (h1 : PySetOrd σ1) (h2 : PySetOrd σ2)
    (obj : List (String × JValue)) : clsFlagParsed σ1 obj = clsFlagParsed σ2 obj := by
  unfold clsFlagParsed
  rw [preFlag_congr h1 h2, aucBlock_congr h1 h2]

theorem clsParsed_norm_perm {σ1 σ2 : SetOrd} (h1 : PySetOrd σ1) (h2 : PySetOrd σ2)
    (obj : List (String × JValue)) :
    List.Perm ((clsParsed σ1 obj).1.map normalizeFinding)
      ((clsParsed σ2 obj).1.map normalizeFinding) := by
  rw [clsParsed_eq, clsParsed_eq]
  simp only [List.map_append]
  refine List.Perm.append (List.Perm.append (List.Perm.append ?_ ?_) ?_) ?_
  · by_cases hA : (missingOf obj).isEmpty
    · simp [hA]
    · simp only [if_neg hA, List.map_cons, List.map_nil, normalizeFinding]
      rw [sortStr_eq_of_perm ((h1 (missingOf obj)).trans (h2 (missingOf obj)).symm)]
  · by_cases hB : (unexpectedOf obj).isEmpty
    · simp [hB]
    · simp only [if_neg hB, List.map_cons, List.map_nil, normalizeFinding]
      rw [sortStr_eq_of_perm ((h1 (unexpectedOf obj)).trans (h2 (unexpectedOf obj)).symm)]
  · unfold keyBlock
    exact (((h1 (keysFoundOf obj)).trans (h2 (keysFoundOf obj)).symm).flatMap_right _).map _
  · rw [aucBlock_congr h1 h2]

theorem clsCheck_norm (σ1 σ2 : SetOrd) (h1 : PySetOrd σ1) (h2 : PySetOrd σ2) (c : ClsPath) :
    List.Perm ((clsCheck σ1 c).1.map normalizeFinding)
        ((clsCheck σ2 c).1.map normalizeFinding) ∧
      (clsCheck σ1 c).2 = (clsCheck σ2 c).2 := by
  match c with
  | ClsPath.absent => exact ⟨List.Perm.refl _, rfl⟩
  | ClsPath.dirEntry => exact ⟨List.Perm.refl _, rfl⟩
  | ClsPath.fileEntry ClsContent.badUnicode => exact ⟨List.Perm.refl _, rfl⟩
  | ClsPath.fileEntry ClsContent.badJson => exact ⟨List.Perm.refl _, rfl⟩
  | ClsPath.fileEntry (ClsContent.parsed obj) =>
      have hfl : (clsParsed σ1 obj).2 = (clsParsed σ2 obj).2 := by
        rw [clsParsed_eq, clsParsed_eq]
        exact clsFlagParsed_congr h1 h2 obj
      rw [clsCheck_parsed, clsCheck_parsed]
      refine ⟨?_, hfl⟩
      simp only [List.map_append]
      refine List.Perm.append (clsParsed_norm_perm h1 h2 obj) ?_
      rw [hfl]

theorem isEmpty_congr_of_length {α β : Type} {l1 : List α} {l2 : List β}
    (h : l1.length = l2.length) : l1.isEmpty = l2.isEmpty := by
  cases l1 <;> cases l2 <;> simp_all

theorem caseCheck_eq (σ : SetOrd) (m : Manifest) (c : Nat) (e : CaseEntry) :
    caseCheck σ m c e =
      if isDirE e = false then [Finding.segCaseMissing c]
      else if isFileE e = true then [Finding.segCaseIsFile c]
      else
        (if (missPatchOf m c e).isEmpty then []
          else [Finding.segMissingPatches c (σ (missPatchOf m c e))]) ++
        (if (unexpPatchOf m c e).isEmpty then []
          else [Finding.segUnexpectedPatches c (σ (missPatchOf m c e))]) ++
        ((pngsOf e).flatMap fun f => patchCheck f.name f.img) := by
  unfold caseCheck missPatchOf unexpPatchOf foundOf pngsOf
  rfl

theorem caseCheck_norm_eq {σ1 σ2 : SetOrd} (h1 : PySetOrd σ1) (h2 : PySetOrd σ2)
    (m : Manifest) (c : Nat) (e : CaseEntry) :
    (caseCheck σ1 m c e).map normalizeFinding = (caseCheck σ2 m c e).map normalizeFinding := by
  rw [caseCheck_eq, caseCheck_eq]
  by_cases hd : isDirE e = false
  · rw [if_pos hd, if_pos hd]
  · rw [if_neg hd, if_neg hd]
    by_cases hf : isFileE e = true
    · rw [if_pos hf, if_pos hf]
    · rw [if_neg hf, if_neg hf]
      simp only [List.map_append]
      congr 1
      · congr 1
        · by_cases hA : (missPatchOf m c e).isEmpty = true
          · rw [if_pos hA, if_pos hA]
          · rw [if_neg hA, if_neg hA]
            simp only [List.map_cons, List.map_nil, normalizeFinding]
            rw [sortStr_eq_of_perm
              ((h1 (missPatchOf m c e)).trans (h2 (missPatchOf m c e)).symm)]
        · by_cases hB : (unexpPatchOf m c e).isEmpty = true
          · rw [if_pos hB, if_pos hB]
          · rw [if_neg hB, if_neg hB]
            simp only [List.map_cons, List.map_nil, normalizeFinding]
            rw [sortStr_eq_of_perm
              ((h1 (missPatchOf m c e)).trans (h2 (missPatchOf m c e)).symm)]

theorem segCheck_norm (σ1 σ2 : SetOrd) (h1 : PySetOrd σ1) (h2 : PySetOrd σ2)
    (m : Manifest) (cs : List CaseEntry) :
    (segCheck σ1 m cs).1.map normalizeFinding = (segCheck σ2 m cs).1.map normalizeFinding ∧
      (segCheck σ1 m cs).2 = (segCheck σ2 m cs).2 := by
  have hcase : ∀ i : Nat,
      (caseCheck σ1 m (i + 1) (cs.getD i CaseEntry.missing)).map normalizeFinding =
        (caseCheck σ2 m (i + 1) (cs.getD i CaseEntry.missing)).map normalizeFinding :=
    fun i => caseCheck_norm_eq h1 h2 m (i + 1) (cs.getD i CaseEntry.missing)
  have hlen : ∀ i : Nat,
      (caseCheck σ1 m (i + 1) (cs.getD i CaseEntry.missing)).length =
        (caseCheck σ2 m (i + 1) (cs.getD i CaseEntry.missing)).length := by
    intro i
    have := congrArg List.length (hcase i)
    simpa using this
  have hflag : segFlag σ1 m cs = segFlag σ2 m cs := by
    unfold segFlag
    congr 1
    funext i
    rw [isEmpty_congr_of_length (hlen i)]
  have hlines : (segLines σ1 m cs).map normalizeFinding =
      (segLines σ2 m cs).map normalizeFinding := by
    unfold segLines
    rw [List.map_flatMap, List.map_flatMap]
    congr 1
    funext i
    exact hcase i
  rw [segCheck_eq, segCheck_eq, hflag]
  refine ⟨?_, rfl⟩
  simp only [List.map_append]
  rw [hlines]

/-- Claim C8 (amended): the diagnostic stream of one archive check is a
function of the archive content and the per-process set-enumeration
order alone; two runs with the same enumeration order print identical
output, and for any two valid enumeration orders the outputs agree up
to the ordering of the name listings inside ERROR/WARNING lines and the
ordering of the per-key value diagnostics (the findings, after sorting
each listed name set, are a permutation). -/
theorem C8_output_perm_up_to_set_order (σ1 σ2 : SetOrd) (h1 : PySetOrd σ1)
    (h2 : PySetOrd σ2) (m : Manifest) (inp : ArchiveInput) :
    List.Perm ((processArchiveF σ1 m inp).map normalizeFinding)
      ((processArchiveF σ2 m inp).map normalizeFinding) := by
  match inp with
  | ArchiveInput.notFound p => exact List.Perm.refl _
  | ArchiveInput.badZip p => exact List.Perm.refl _
  | ArchiveInput.extracted p a =>
      obtain ⟨hcp, hcf⟩ := clsCheck_norm σ1 σ2 h1 h2 a.classification
      obtain ⟨hsp, hsf⟩ := segCheck_norm σ1 σ2 h1 h2 m a.cases
      simp only [processArchiveF, List.map_cons, List.map_append]
      refine List.Perm.cons _ (List.Perm.append (List.Perm.append hcp ?_) ?_)
      · rw [hsp]
      · rw [hcf, hsf]

theorem C8_output_perm_up_to_set_order_witness :
    PySetOrd id ∧ PySetOrd (fun l => l.reverse) ∧
      List.Perm
        ((processArchiveF id exManifestEmpty
            (ArchiveInput.extracted "a.zip" exArchiveEmptyDict)).map normalizeFinding)
        ((processArchiveF (fun l => l.reverse) exManifestEmpty
            (ArchiveInput.extracted "a.zip" exArchiveEmptyDict)).map normalizeFinding) :=
  ⟨fun l => List.Perm.refl l, fun l => List.reverse_perm l,
    C8_output_perm_up_to_set_order id (fun l => l.reverse) (fun l => List.Perm.refl l)
      (fun l => List.reverse_perm l) exManifestEmpty
      (ArchiveInput.extracted "a.zip" exArchiveEmptyDict)⟩

/-- Claim C8 counterexample: the same fully determined archive checked
under two valid set-enumeration orders (the identity order and its
reverse, as produced by different hash seeds) prints the 40 missing
keys in different orders, so two runs of the program need not produce
identical diagnostic output. -/
theorem C8_different_set_orders_differ :
    PySetOrd id ∧ PySetOrd (fun l => l.reverse) ∧
      processArchiveF (fun l => l.reverse) exManifestEmpty
          (ArchiveInput.extracted "a.zip" exArchiveEmptyDict) ≠
        processArchiveF id exManifestEmpty
          (ArchiveInput.extracted "a.zip" exArchiveEmptyDict) :=
  ⟨fun l => List.Perm.refl l, fun l => List.reverse_perm l, by decide⟩
